import Mathlib

/-!
Shallow embedding of `src/error.rs` of serde-pickle: the error taxonomy
(`ErrorCode`, `Error`), its `Display` and `description` renderings, the
`From` conversions from transport and byte-reader failures, and the
framework adapter constructors (`de::Error` / `ser::Error` impls).

Rust strings are modelled as Lean `String`, byte vectors as `List Nat`,
`usize` as `Nat`. External collaborator types (`io::Error`,
`byteorder::Error`, `serde::de::Type`) are modelled by their observable
surface: kind, display text and description string.
-/

namespace SerdePickle

/-! ### Substring machinery (used to state "rendered text contains ...") -/

/-- `startsWithL pre l` is true when `pre` is a prefix of `l`. -/
def startsWithL : List Char → List Char → Bool
  | [], _ => true
  | _ :: _, [] => false
  | a :: as, b :: bs => a == b && startsWithL as bs

/-- `containsL hay ndl` is true when `ndl` occurs contiguously inside `hay`. -/
def containsL : List Char → List Char → Bool
  | hay, ndl =>
    match hay with
    | [] => startsWithL ndl []
    | c :: t => startsWithL ndl (c :: t) || containsL t ndl

/-- `strContains hay ndl`: `ndl` occurs as a substring of `hay`. -/
def strContains (hay ndl : String) : Bool :=
  containsL hay.data ndl.data

/-! ### Models of the external collaborator types -/

/-- Opaque model of the generic framework type descriptor (`serde::de::Type`).
Only its debug rendering (what `{:?}` prints) is observable in this module. -/
structure DeType where
  debug : String
deriving DecidableEq

/-- Model of `std::io::ErrorKind`: the end-of-input kind is distinguished,
every other kind is an opaque tag. -/
inductive IoErrorKind
  | unexpectedEof
  | other (tag : Nat)
deriving DecidableEq

/-- Model of `std::io::Error`: its kind, its `Display` text and its
`description()` string. -/
structure IoError where
  kind : IoErrorKind
  text : String
  descr : String
deriving DecidableEq

/-- `io::Error::new(kind, payload)`: the resulting error has the given kind
and delegates display/description to the payload. -/
def IoError.new (k : IoErrorKind) (payloadText payloadDescr : String) : IoError :=
  ⟨k, payloadText, payloadDescr⟩

/-- Model of `byteorder::Error` (byteorder 0.5): either a wrapped I/O error
or the dedicated unexpected-EOF case. -/
inductive ByteorderError
  | io (e : IoError)
  | unexpectedEOF
deriving DecidableEq

/-- Display text of `byteorder::Error::UnexpectedEOF` in the external crate
(not part of this repository; no claim depends on its exact wording). -/
def byteorderUnexpectedEOFText : String := "Unexpected end of file"

/-- `description()` of `byteorder::Error::UnexpectedEOF` in the external crate. -/
def byteorderUnexpectedEOFDescr : String := "unexpected EOF"

/-! ### Rust text-rendering helpers mirrored for the payload types -/

/-- The Unicode replacement character U+FFFD. -/
def repl : Char := Char.ofNat 0xFFFD

/-- A byte in the UTF-8 continuation range `0x80..=0xBF`. -/
def isCont (b : Nat) : Bool := 0x80 ≤ b && b ≤ 0xBF

/-- Valid first continuation byte for a three-byte sequence with lead `b`. -/
def cont1ok3 (b b1 : Nat) : Bool :=
  if b == 0xE0 then 0xA0 ≤ b1 && b1 ≤ 0xBF
  else if b == 0xED then 0x80 ≤ b1 && b1 ≤ 0x9F
  else isCont b1

/-- Valid first continuation byte for a four-byte sequence with lead `b`. -/
def cont1ok4 (b b1 : Nat) : Bool :=
  if b == 0xF0 then 0x90 ≤ b1 && b1 ≤ 0xBF
  else if b == 0xF4 then 0x80 ≤ b1 && b1 ≤ 0x8F
  else isCont b1

/-- `String::from_utf8_lossy`: decode UTF-8, replacing each maximal invalid
subpart by U+FFFD (the substitution-of-maximal-subparts policy Rust uses). -/
def utf8Lossy : List Nat → List Char
  | [] => []
  | b :: rest =>
    if b ≤ 0x7F then Char.ofNat b :: utf8Lossy rest
    else if b ≤ 0xC1 then repl :: utf8Lossy rest
    else if b ≤ 0xDF then
      match rest with
      | [] => [repl]
      | b1 :: r1 =>
        if isCont b1 then
          Char.ofNat ((b - 0xC0) * 0x40 + (b1 - 0x80)) :: utf8Lossy r1
        else repl :: utf8Lossy (b1 :: r1)
    else if b ≤ 0xEF then
      match rest with
      | [] => [repl]
      | b1 :: r1 =>
        if cont1ok3 b b1 then
          match r1 with
          | [] => [repl]
          | b2 :: r2 =>
            if isCont b2 then
              Char.ofNat ((b - 0xE0) * 0x1000 + (b1 - 0x80) * 0x40 + (b2 - 0x80))
                :: utf8Lossy r2
            else repl :: utf8Lossy (b2 :: r2)
        else repl :: utf8Lossy (b1 :: r1)
    else if b ≤ 0xF4 then
      match rest with
      | [] => [repl]
      | b1 :: r1 =>
        if cont1ok4 b b1 then
          match r1 with
          | [] => [repl]
          | b2 :: r2 =>
            if isCont b2 then
              match r2 with
              | [] => [repl]
              | b3 :: r3 =>
                if isCont b3 then
                  Char.ofNat ((b - 0xF0) * 0x40000 + (b1 - 0x80) * 0x1000
                      + (b2 - 0x80) * 0x40 + (b3 - 0x80)) :: utf8Lossy r3
                else repl :: utf8Lossy (b3 :: r3)
            else repl :: utf8Lossy (b2 :: r2)
        else repl :: utf8Lossy (b1 :: r1)
    else repl :: utf8Lossy rest

/-- `char::escape_default` of one char, as used by `{:?}` on `char` in the
Rust version this crate targets: named escapes for tab, CR, LF, backslash
and both quotes; printable ASCII unchanged; everything else as a
backslash-u-braced lowercase hex escape. -/
def escapeDefaultChar (c : Char) : List Char :=
  if c == Char.ofNat 9 then [Char.ofNat 92, Char.ofNat 116]
  else if c == Char.ofNat 13 then [Char.ofNat 92, Char.ofNat 114]
  else if c == Char.ofNat 10 then [Char.ofNat 92, Char.ofNat 110]
  else if c == Char.ofNat 92 then [Char.ofNat 92, Char.ofNat 92]
  else if c == Char.ofNat 39 then [Char.ofNat 92, Char.ofNat 39]
  else if c == Char.ofNat 34 then [Char.ofNat 92, Char.ofNat 34]
  else if 0x20 ≤ c.toNat && c.toNat ≤ 0x7E then [c]
  else Char.ofNat 92 :: Char.ofNat 117 :: Char.ofNat 123
      :: (Nat.toDigits 16 c.toNat ++ [Char.ofNat 125])

/-- `{:?}` on a `char`: a single-quoted, escaped character. -/
def charDebug (c : Char) : String :=
  String.mk (Char.ofNat 39 :: (escapeDefaultChar c ++ [Char.ofNat 39]))

/-! ### The data model of `error.rs` -/

/-- The `ErrorCode` enum of `error.rs`, payloads modelled as described above. -/
inductive ErrorCode
  | Unsupported (ch : Char)
  | EOFWhileParsing
  | StackUnderflow
  | NegativeLength
  | StringNotUTF8
  | InvalidStackTop
  | ValueNotHashable
  | InvalidLiteral (l : List Nat)
  | TrailingBytes
  | InvalidType (t : DeType)
  | InvalidValue (s : String)
  | InvalidLength (l : Nat)
  | UnknownVariant (v : String)
  | UnknownField (f : String)
  | MissingField (f : String)
  | Custom (s : String)
deriving DecidableEq

/-- `impl fmt::Display for ErrorCode`, arm by arm. -/
def ErrorCode.fmt : ErrorCode → String
  | .Unsupported ch => "unsupported opcode " ++ charDebug ch
  | .EOFWhileParsing => "EOF while parsing"
  | .StackUnderflow => "pickle stack underflow"
  | .NegativeLength => "negative length prefix"
  | .StringNotUTF8 => "string is not UTF8 encoded"
  | .InvalidStackTop => "invalid type of top of stack"
  | .ValueNotHashable => "dict key or set item not hashable"
  | .InvalidLiteral l => "literal is invalid: " ++ String.mk (utf8Lossy l)
  | .TrailingBytes => "trailing bytes found"
  | .InvalidType t => "invalid type: " ++ t.debug
  | .InvalidValue s => "invalid value: " ++ s
  | .InvalidLength l => "invalid length: " ++ Nat.repr l
  | .UnknownVariant v => "unknown variant: " ++ v
  | .UnknownField f => "unknown field: " ++ f
  | .MissingField f => "missing field: " ++ f
  | .Custom s => s

/-- The `Error` enum of `error.rs`. -/
inductive Error
  | Io (e : IoError)
  | Eval (code : ErrorCode) (offset : Nat)
  | Syntax (code : ErrorCode)
deriving DecidableEq

/-- `impl From<io::Error> for Error`. -/
def fromIo (error : IoError) : Error := Error.Io error

/-- `impl From<byteorder::Error> for Error`: a wrapped I/O error passes
through; `UnexpectedEOF` becomes an `Io` error of kind `UnexpectedEof`
wrapping the byteorder error itself. -/
def fromByteorder : ByteorderError → Error
  | .io err => Error.Io err
  | .unexpectedEOF =>
      Error.Io (IoError.new IoErrorKind.unexpectedEof
        byteorderUnexpectedEOFText byteorderUnexpectedEOFDescr)

/-- The `Result<T>` alias of `error.rs`. -/
abbrev Result (α : Type) := Except Error α

/-- `impl fmt::Display for Error`. -/
def Error.fmt : Error → String
  | .Io e => e.text
  | .Eval code offset => "eval error at offset " ++ Nat.repr offset ++ ": " ++ code.fmt
  | .Syntax code => "decoding error: " ++ code.fmt

/-- `impl error::Error for Error`, the `description` method. -/
def Error.description : Error → String
  | .Io e => e.descr
  | .Eval _ _ => "pickle eval error"
  | .Syntax _ => "serde decoding error"

namespace de

/-- `de::Error::custom` (the `Into<String>` argument taken as a `String`). -/
def custom (msg : String) : Error := Error.Syntax (ErrorCode.Custom msg)

/-- `de::Error::end_of_stream`. -/
def end_of_stream : Error := Error.Syntax ErrorCode.EOFWhileParsing

/-- `de::Error::invalid_type`. -/
def invalid_type (ty : DeType) : Error := Error.Syntax (ErrorCode.InvalidType ty)

/-- `de::Error::invalid_value`. -/
def invalid_value (msg : String) : Error := Error.Syntax (ErrorCode.InvalidValue msg)

/-- `de::Error::invalid_length`. -/
def invalid_length (len : Nat) : Error := Error.Syntax (ErrorCode.InvalidLength len)

/-- `de::Error::unknown_variant`. -/
def unknown_variant (variant : String) : Error :=
  Error.Syntax (ErrorCode.UnknownVariant variant)

/-- `de::Error::unknown_field`. -/
def unknown_field (field : String) : Error :=
  Error.Syntax (ErrorCode.UnknownField field)

/-- `de::Error::missing_field`. -/
def missing_field (field : String) : Error :=
  Error.Syntax (ErrorCode.MissingField field)

end de

namespace ser

/-- `ser::Error::custom` (the `Into<String>` argument taken as a `String`). -/
def custom (msg : String) : Error := Error.Syntax (ErrorCode.Custom msg)

end ser

/-! ### Lemmas about the substring machinery -/

theorem startsWithL_self (x : List Char) : startsWithL x x = true := by
  induction x with
  | nil => rfl
  | cons a as ih => simp [startsWithL, ih]

theorem startsWithL_append (x b : List Char) : startsWithL x (x ++ b) = true := by
  induction x with
  | nil => rfl
  | cons a as ih => simp [startsWithL, ih]

theorem containsL_of_startsWithL (hay ndl : List Char)
    (h : startsWithL ndl hay = true) : containsL hay ndl = true := by
  cases hay with
  | nil => simpa [containsL] using h
  | cons c t => simp [containsL, h]

theorem containsL_append_left (p t ndl : List Char)
    (h : containsL t ndl = true) : containsL (p ++ t) ndl = true := by
  induction p with
  | nil => simpa using h
  | cons c p' ih => simp [containsL, ih]

theorem containsL_self (x : List Char) : containsL x x = true :=
  containsL_of_startsWithL x x (startsWithL_self x)

theorem strContains_right (a x : String) : strContains (a ++ x) x = true := by
  unfold strContains
  rw [String.data_append]
  exact containsL_append_left _ _ _ (containsL_self _)

theorem strContains_mid (a x b : String) : strContains (a ++ (x ++ b)) x = true := by
  unfold strContains
  rw [String.data_append, String.data_append]
  exact containsL_append_left _ _ _
    (containsL_of_startsWithL _ _ (startsWithL_append _ _))

theorem startsWithL_append_cases (a : List Char) :
    ∀ x b : List Char, startsWithL x (a ++ b) = true →
      startsWithL x a = true ∨ startsWithL a x = true := by
  induction a with
  | nil => intro x b _; right; rfl
  | cons c t ih =>
    intro x b h
    cases x with
    | nil => left; rfl
    | cons y ys =>
      simp only [List.cons_append, startsWithL, Bool.and_eq_true, beq_iff_eq] at h
      rcases h with ⟨rfl, h2⟩
      rcases ih ys b h2 with h3 | h3
      · left; simp [startsWithL, h3]
      · right; simp [startsWithL, h3]

/-- No nonempty suffix of `fixed` is a prefix of `ndl`: an occurrence of
`ndl` in `fixed ++ rc` then cannot start inside `fixed` and cross into `rc`. -/
def noCross : List Char → List Char → Bool
  | fixed, ndl =>
    match fixed with
    | [] => true
    | c :: t => !(startsWithL (c :: t) ndl) && noCross t ndl

theorem containsL_append_split (fixed rc ndl : List Char)
    (hnc : noCross fixed ndl = true) (hni : containsL fixed ndl = false)
    (h : containsL (fixed ++ rc) ndl = true) : containsL rc ndl = true := by
  induction fixed with
  | nil => simpa using h
  | cons c t ih =>
    simp only [List.cons_append, containsL, Bool.or_eq_true] at h
    simp only [containsL, Bool.or_eq_false_iff] at hni
    simp only [noCross, Bool.and_eq_true, Bool.not_eq_true'] at hnc
    rcases h with h | h
    · rcases startsWithL_append_cases (c :: t) ndl rc h with h2 | h2
      · exact absurd (containsL_of_startsWithL _ _ h2) (by simp [containsL, hni.1, hni.2])
      · exact absurd h2 (by simp [hnc.1])
    · exact ih hnc.2 hni.2 h

theorem strContains_nested (a b x : String) : strContains (a ++ (b ++ x)) x = true := by
  unfold strContains
  rw [String.data_append, String.data_append, ← List.append_assoc]
  exact containsL_append_left _ _ _ (containsL_self _)

theorem append_ne_empty_of_left (p x : String) (h : 0 < p.length) : p ++ x ≠ "" := by
  intro he
  have hl := congrArg String.length he
  rw [String.length_append] at hl
  have h0 : String.length "" = 0 := rfl
  rw [h0] at hl
  omega

/-! ### Claim theorems -/

/-- Claim C1: each deserialization-side framework adapter returns exactly the
`Syntax(ErrorCode)` value of the mapping table, its rendered text contains the
supplied argument verbatim, and `missing_field "id"` renders with
"missing field: id". -/
theorem claim_C1_framework_adapters :
    (∀ msg : String, de.custom msg = Error.Syntax (ErrorCode.Custom msg) ∧
      strContains (Error.fmt (de.custom msg)) msg = true) ∧
    de.end_of_stream = Error.Syntax ErrorCode.EOFWhileParsing ∧
    (∀ ty : DeType, de.invalid_type ty = Error.Syntax (ErrorCode.InvalidType ty) ∧
      strContains (Error.fmt (de.invalid_type ty)) ty.debug = true) ∧
    (∀ msg : String, de.invalid_value msg = Error.Syntax (ErrorCode.InvalidValue msg) ∧
      strContains (Error.fmt (de.invalid_value msg)) msg = true) ∧
    (∀ len : Nat, de.invalid_length len = Error.Syntax (ErrorCode.InvalidLength len) ∧
      strContains (Error.fmt (de.invalid_length len)) (Nat.repr len) = true) ∧
    (∀ v : String, de.unknown_variant v = Error.Syntax (ErrorCode.UnknownVariant v) ∧
      strContains (Error.fmt (de.unknown_variant v)) v = true) ∧
    (∀ f : String, de.unknown_field f = Error.Syntax (ErrorCode.UnknownField f) ∧
      strContains (Error.fmt (de.unknown_field f)) f = true) ∧
    (∀ f : String, de.missing_field f = Error.Syntax (ErrorCode.MissingField f) ∧
      strContains (Error.fmt (de.missing_field f)) f = true) ∧
    strContains (Error.fmt (de.missing_field ("id"))) ("missing field: id") = true := by
  refine ⟨fun msg => ⟨rfl, ?_⟩, rfl, fun ty => ⟨rfl, ?_⟩, fun msg => ⟨rfl, ?_⟩,
    fun len => ⟨rfl, ?_⟩, fun v => ⟨rfl, ?_⟩, fun f => ⟨rfl, ?_⟩, fun f => ⟨rfl, ?_⟩, ?_⟩
  · exact strContains_right ("decoding error: ") msg
  · exact strContains_nested ("decoding error: ") ("invalid type: ") ty.debug
  · exact strContains_nested ("decoding error: ") ("invalid value: ") msg
  · exact strContains_nested ("decoding error: ") ("invalid length: ") (Nat.repr len)
  · exact strContains_nested ("decoding error: ") ("unknown variant: ") v
  · exact strContains_nested ("decoding error: ") ("unknown field: ") f
  · exact strContains_nested ("decoding error: ") ("missing field: ") f
  · decide

/-- Claim C2: `Display` for `Error`: `Io` delegates to the wrapped error's
text, `Eval` renders with the offset prefix, `Syntax` with the decoding
prefix; the `Eval(StackUnderflow, 42)` scenario renders exactly as stated. -/
theorem claim_C2_error_display :
    (∀ e : IoError, Error.fmt (Error.Io e) = e.text) ∧
    (∀ (code : ErrorCode) (offset : Nat), Error.fmt (Error.Eval code offset)
      = "eval error at offset " ++ Nat.repr offset ++ ": " ++ code.fmt) ∧
    (∀ code : ErrorCode, Error.fmt (Error.Syntax code) = "decoding error: " ++ code.fmt) ∧
    Error.fmt (Error.Eval ErrorCode.StackUnderflow 42)
      = "eval error at offset 42: pickle stack underflow" := by
  exact ⟨fun _ => rfl, fun _ _ => rfl, fun _ => rfl, by decide⟩

/-- Claim C3: the byteorder conversion wraps a generic I/O fault unchanged as
`Error::Io`, and maps `UnexpectedEOF` to an `Error::Io` whose wrapped error
has kind `UnexpectedEof`, distinguishable from a generic fault. -/
theorem claim_C3_byteorder_conversion :
    (∀ e : IoError, fromByteorder (ByteorderError.io e) = Error.Io e) ∧
    (∃ e : IoError, fromByteorder ByteorderError.unexpectedEOF = Error.Io e ∧
      e.kind = IoErrorKind.unexpectedEof) :=
  ⟨fun _ => rfl, ⟨IoError.new IoErrorKind.unexpectedEof
    byteorderUnexpectedEOFText byteorderUnexpectedEOFDescr, rfl, rfl⟩⟩

/-- Claim C4 counterexample: `ErrorCode::Custom` with an empty message renders
as the empty string, so the rendering is not non-empty for every variant and
payload. -/
theorem claim_C4_counterexample : ErrorCode.fmt (ErrorCode.Custom ("")) = "" := rfl

/-- Claim C4 (amended): rendering is total and deterministic; every variant
except `Custom` renders non-empty, while `Custom` renders exactly its message
(hence empty only for an empty message); `InvalidLiteral` with invalid UTF-8
renders via lossy decoding (byte 0xFF becomes U+FFFD). -/
theorem claim_C4_display_total :
    (∀ code : ErrorCode, ErrorCode.fmt code ≠ "" ∨
      ∃ s : String, code = ErrorCode.Custom s ∧ ErrorCode.fmt code = s) ∧
    ErrorCode.fmt (ErrorCode.InvalidLiteral [255])
      = "literal is invalid: " ++ String.mk [Char.ofNat 0xFFFD] := by
  constructor
  · intro code
    cases code with
    | Unsupported ch => exact Or.inl (append_ne_empty_of_left _ _ (by decide))
    | EOFWhileParsing => exact Or.inl (by decide)
    | StackUnderflow => exact Or.inl (by decide)
    | NegativeLength => exact Or.inl (by decide)
    | StringNotUTF8 => exact Or.inl (by decide)
    | InvalidStackTop => exact Or.inl (by decide)
    | ValueNotHashable => exact Or.inl (by decide)
    | InvalidLiteral l => exact Or.inl (append_ne_empty_of_left _ _ (by decide))
    | TrailingBytes => exact Or.inl (by decide)
    | InvalidType t => exact Or.inl (append_ne_empty_of_left _ _ (by decide))
    | InvalidValue s => exact Or.inl (append_ne_empty_of_left _ _ (by decide))
    | InvalidLength l => exact Or.inl (append_ne_empty_of_left _ _ (by decide))
    | UnknownVariant v => exact Or.inl (append_ne_empty_of_left _ _ (by decide))
    | UnknownField f => exact Or.inl (append_ne_empty_of_left _ _ (by decide))
    | MissingField f => exact Or.inl (append_ne_empty_of_left _ _ (by decide))
    | Custom s => exact Or.inr ⟨s, rfl, rfl⟩
  · decide

/-- Claim C5 counterexample: a `Custom` payload can inject an offset substring
into a `Syntax` error's rendered text, so "never contains an offset
substring" fails as universally stated. -/
theorem claim_C5_counterexample :
    strContains (Error.fmt (Error.Syntax (ErrorCode.Custom ("at offset 0"))))
      ("offset") = true := by decide

/-- Claim C5 (amended): the `Syntax` rendering adds no offset of its own:
whenever the code's own rendered text does not contain "offset", neither does
the rendered text of `Error::Syntax(code)`. -/
theorem claim_C5_syntax_no_offset (code : ErrorCode)
    (h : strContains (ErrorCode.fmt code) ("offset") = false) :
    strContains (Error.fmt (Error.Syntax code)) ("offset") = false := by
  have key := containsL_append_split (String.data ("decoding error: "))
    (ErrorCode.fmt code).data (String.data ("offset")) (by decide) (by decide)
  unfold strContains at h ⊢
  rw [show Error.fmt (Error.Syntax code) = "decoding error: " ++ ErrorCode.fmt code from rfl,
    String.data_append]
  cases hx : containsL (String.data ("decoding error: ") ++ (ErrorCode.fmt code).data)
      (String.data ("offset")) with
  | false => rfl
  | true => rw [key hx] at h; exact absurd h (by simp)

theorem claim_C5_witness :
    strContains (ErrorCode.fmt ErrorCode.StackUnderflow) ("offset") = false ∧
    strContains (Error.fmt (Error.Syntax ErrorCode.StackUnderflow)) ("offset") = false :=
  ⟨by decide, claim_C5_syntax_no_offset ErrorCode.StackUnderflow (by decide)⟩

/-- Claim C6: `From<io::Error>` wraps the failure unchanged as `Error::Io`,
and the displayed text of the result equals the original failure's text. -/
theorem claim_C6_from_io :
    (∀ e : IoError, fromIo e = Error.Io e) ∧
    (∀ e : IoError, Error.fmt (fromIo e) = e.text) :=
  ⟨fun _ => rfl, fun _ => rfl⟩

/-- Claim C7: `description()` delegates to the wrapped failure for `Io` and
returns the fixed category strings for `Eval` and `Syntax`. -/
theorem claim_C7_description :
    (∀ e : IoError, Error.description (Error.Io e) = e.descr) ∧
    (∀ (code : ErrorCode) (offset : Nat),
      Error.description (Error.Eval code offset) = "pickle eval error") ∧
    (∀ code : ErrorCode, Error.description (Error.Syntax code) = "serde decoding error") :=
  ⟨fun _ => rfl, fun _ _ => rfl, fun _ => rfl⟩

/-- Claim C8: the rendered text of `Error::Eval(code, offset)` contains the
decimal offset and the full rendered text of the code, for every offset. -/
theorem claim_C8_eval_contains (code : ErrorCode) (offset : Nat) :
    strContains (Error.fmt (Error.Eval code offset)) (Nat.repr offset) = true ∧
    strContains (Error.fmt (Error.Eval code offset)) (ErrorCode.fmt code) = true := by
  constructor
  · show strContains
      ("eval error at offset " ++ Nat.repr offset ++ ": " ++ ErrorCode.fmt code)
      (Nat.repr offset) = true
    unfold strContains
    simp only [String.data_append, List.append_assoc]
    exact containsL_append_left _ _ _
      (containsL_of_startsWithL _ _ (startsWithL_append _ _))
  · exact strContains_right ("eval error at offset " ++ Nat.repr offset ++ ": ")
      (ErrorCode.fmt code)

/-- Claim C9: the serialization-side and deserialization-side `custom`
adapters are extensionally equal, both producing `Syntax(Custom(msg))`. -/
theorem claim_C9_custom_agree (msg : String) :
    ser.custom msg = de.custom msg ∧
    ser.custom msg = Error.Syntax (ErrorCode.Custom msg) :=
  ⟨rfl, rfl⟩

/-- Claim C10: a `Syntax(Custom(m))` error renders as exactly
"decoding error: " followed by `m`, with no other alteration; an empty
message yields exactly "decoding error: ". -/
theorem claim_C10_custom_render :
    (∀ m : String, Error.fmt (Error.Syntax (ErrorCode.Custom m)) = "decoding error: " ++ m) ∧
    Error.fmt (Error.Syntax (ErrorCode.Custom (""))) = "decoding error: " :=
  ⟨fun m => rfl, by decide⟩

end SerdePickle
